import Mathlib

/-!
Verification of the Mython interpreter front end and evaluator.

The development embeds, as executable Lean definitions, the lexer
(`lexer.h` / `lexer.cpp`, namespace `parse`), the runtime value model
(`runtime.cpp`, namespace `runtime`) and the AST evaluator
(`statement.cpp`, namespace `ast`) of the Mython interpreter, and proves
theorems about the behaviour of those definitions.
-/

namespace Mython

/-! ## Token model (`parse::token_type`, lexer.h)

One constructor per alternative of the `TokenBase` variant.  `Number`
carries a C++ `int`, modelled as `Int` (overflow of `std::stoi` on huge
literals is not modelled); `Id` and `String` carry the character list of
the payload. -/

inductive Tok where
  | number (value : Int)
  | id (value : List Char)
  | char (value : Char)
  | str (value : List Char)
  | kwClass
  | kwReturn
  | kwIf
  | kwElse
  | kwDef
  | newline
  | kwPrint
  | indent
  | dedent
  | kwAnd
  | kwOr
  | kwNot
  | eq
  | notEq
  | lessOrEq
  | greaterOrEq
  | kwNone
  | kwTrue
  | kwFalse
  | eof
  deriving DecidableEq, Repr

/-- Source: `parse::LexerError` (lexer.h): carries a human-readable message. -/
structure LexErr where
  msg : String
  deriving DecidableEq, Repr

instance {e a : Type} [DecidableEq e] [DecidableEq a] : DecidableEq (Except e a) := fun x y =>
  match x, y with
  | .error u, .error v => decidable_of_iff (u = v) (by simp)
  | .ok u, .ok v => decidable_of_iff (u = v) (by simp)
  | .error _, .ok _ => isFalse (by simp)
  | .ok _, .error _ => isFalse (by simp)

/-- Source: `std::isspace` in the C locale, for the byte values the lexer meets. -/
def isSpaceC (c : Char) : Bool :=
  c = ' ' || c = '\t' || c = '\n' || c = '\x0B' || c = '\x0C' || c = '\r'

/-- Source: `Lexer::key_words_for_tokens` (lexer.cpp).  A `std::map` keyed by
`string_view`; iteration order is the sorted key order, which is the
order `GetKeyWords` exposes to `SplitTokenKeyWord`. -/
def key_words_for_tokens : List (List Char × Tok) :=
  [("False".toList, Tok.kwFalse),
   ("None".toList, Tok.kwNone),
   ("True".toList, Tok.kwTrue),
   ("and".toList, Tok.kwAnd),
   ("class".toList, Tok.kwClass),
   ("def".toList, Tok.kwDef),
   ("else".toList, Tok.kwElse),
   ("if".toList, Tok.kwIf),
   ("not".toList, Tok.kwNot),
   ("or".toList, Tok.kwOr),
   ("print".toList, Tok.kwPrint),
   ("return".toList, Tok.kwReturn)]

/-- Source: `Lexer::symbols_for_comparison` (lexer.cpp), in sorted map order. -/
def symbols_for_comparison : List (List Char × Tok) :=
  [("!=".toList, Tok.notEq),
   ("<=".toList, Tok.lessOrEq),
   ("==".toList, Tok.eq),
   (">=".toList, Tok.greaterOrEq)]

/-- Source: `Lexer::chars` (lexer.cpp): the single-character punctuation tokens. -/
def lexChars : List Char :=
  ['<', '>', '=', '+', '-', '*', '/', '(', ')', '.', ',', ':']

/-- Source: `Lexer::RemoveSpaceLeft`: strips leading `' '` characters and
returns how many were stripped together with the remainder. -/
def removeSpaceLeft : List Char → Nat × List Char
  | [] => (0, [])
  | c :: rest =>
    if c = ' ' then ((removeSpaceLeft rest).1 + 1, (removeSpaceLeft rest).2)
    else (0, c :: rest)

/-- Source: `Lexer::SplitTokenChar`. -/
def splitTokenChar : List Char → Option (Tok × List Char)
  | [] => none
  | c :: rest => if c ∈ lexChars then some (Tok.char c, rest) else none

/-- Decimal decoding of a digit run (the `std::stoi` call in
`SplitTokenNumber`; the digits are nonnegative so no sign handling). -/
def decodeDigits (ds : List Char) : Int :=
  ds.foldl (fun acc c => acc * 10 + (c.toNat - '0'.toNat)) 0

/-- Source: `Lexer::SplitTokenNumber`: maximal run of decimal digits. -/
def splitTokenNumber (line : List Char) : Option (Tok × List Char) :=
  if (line.takeWhile Char.isDigit).isEmpty then none
  else some (Tok.number (decodeDigits (line.takeWhile Char.isDigit)),
             line.drop (line.takeWhile Char.isDigit).length)

/-- The loop body of `Lexer::SplitTokenString` (lexer.cpp lines 175-199),
rephrased as consuming the line from the front.  `start` is the opening
quote.  Returns the decoded value and the unconsumed remainder of the
line.  The recognized escape introducers are exactly the characters of
`symbols_for_backslash_shielding`, the raw string `"'nt` — note that a
backslash is NOT among them: on `\\` the first backslash itself is
emitted (the `else` branch `value += line[pos]` with `pos` still at the
backslash) and only one character is consumed.  Reaching the end of the
line without a closing quote simply ends the loop: no error is raised. -/
def strLoop (start : Char) : List Char → List Char × List Char
  | [] => ([], [])
  | ['\\'] => (['\\'], [])
  | '\\' :: d :: rest2 =>
    if d = '"' || d = '\'' || d = 'n' || d = 't' then
      ((if d = 'n' then '\n' else if d = 't' then '\t' else d)
         :: (strLoop start rest2).1,
       (strLoop start rest2).2)
    else
      ('\\' :: (strLoop start (d :: rest2)).1, (strLoop start (d :: rest2)).2)
  | c :: rest =>
    if c = start then
      ([], rest)
    else
      (c :: (strLoop start rest).1, (strLoop start rest).2)

/-- Source: `Lexer::SplitTokenString`: a token starting with `"` or `'`. -/
def splitTokenString : List Char → Option (Tok × List Char)
  | [] => none
  | c :: rest =>
    if c = '"' || c = '\'' then
      some (Tok.str (strLoop c rest).1, (strLoop c rest).2)
    else none

/-- Source: `Lexer::CheckSymbolForIdBegin`. -/
def checkSymbolForIdBegin (c : Char) : Bool :=
  c = '_' || ('a' ≤ c && c ≤ 'z') || ('A' ≤ c && c ≤ 'Z')

/-- Source: `Lexer::CheckSymbolForId`. -/
def checkSymbolForId (c : Char) : Bool :=
  checkSymbolForIdBegin c || c.isDigit

/-- Source: `Lexer::SplitTokenId`. -/
def splitTokenId : List Char → Option (Tok × List Char)
  | [] => none
  | c :: rest =>
    if checkSymbolForIdBegin c then
      some (Tok.id (c :: rest.takeWhile checkSymbolForId),
            rest.drop (rest.takeWhile checkSymbolForId).length)
    else none

/-- Source: `Lexer::SplitTokenKeyWord`: the first keyword (in the sorted order of
`GetKeyWords`) that is a prefix of the line matches, provided the
character right after it is end-of-line, whitespace, `:` or `,`. -/
def splitTokenKeyWord (line : List Char) : Option (Tok × List Char) :=
  match key_words_for_tokens.find? (fun p => p.1.isPrefixOf line) with
  | none => none
  | some p =>
    match line.drop p.1.length with
    | [] => some (p.2, [])
    | c :: rest =>
      if isSpaceC c || c = ':' || c = ',' then some (p.2, c :: rest)
      else none

/-- Source: `Lexer::SplitTokenComparison`: first two-character comparison that is
a prefix of the line (no boundary check). -/
def splitTokenComparison (line : List Char) : Option (Tok × List Char) :=
  match symbols_for_comparison.find? (fun p => p.1.isPrefixOf line) with
  | none => none
  | some p => some (p.2, line.drop p.1.length)

/-- Source: `Lexer::SplitTokenLeft`: on an empty line or a `#` comment, consume
the whole line and yield no token; otherwise run the splitters in the
order installed by `GetSplitersOfTokens` (keyword, comparison, char,
number, string, id) and fail with a `LexerError` if none match. -/
def splitTokenLeft (line : List Char) : Except LexErr (Option Tok × List Char) :=
  match line with
  | [] => .ok (none, [])
  | c :: _ =>
    if c = '#' then .ok (none, [])
    else
      match splitTokenKeyWord line with
      | some (t, r) => .ok (some t, r)
      | none =>
        match splitTokenComparison line with
        | some (t, r) => .ok (some t, r)
        | none =>
          match splitTokenChar line with
          | some (t, r) => .ok (some t, r)
          | none =>
            match splitTokenNumber line with
            | some (t, r) => .ok (some t, r)
            | none =>
              match splitTokenString line with
              | some (t, r) => .ok (some t, r)
              | none =>
                match splitTokenId line with
                | some (t, r) => .ok (some t, r)
                | none => .error ⟨"logic error in Lexer::SplitTokenLeft"⟩

theorem removeSpaceLeft_length_le (l : List Char) :
    (removeSpaceLeft l).2.length ≤ l.length := by
  induction l with
  | nil => simp [removeSpaceLeft]
  | cons c rest ih =>
    by_cases h : c = ' '
    · simp only [removeSpaceLeft, if_pos h, List.length_cons]
      omega
    · simp [removeSpaceLeft, h]

theorem takeWhile_len_le (p : Char → Bool) (l : List Char) :
    (l.takeWhile p).length ≤ l.length := by
  induction l with
  | nil => simp
  | cons c rest ih =>
    by_cases h : p c
    · simp only [List.takeWhile_cons, if_pos h, List.length_cons]
      exact Nat.succ_le_succ ih
    · simp [List.takeWhile_cons, h]

/-! Unfolding equations for `strLoop`, one per branch of the C++ loop. -/

theorem strLoop_nil (start : Char) : strLoop start [] = ([], []) := by
  simp [strLoop]

theorem strLoop_backslash_end (start : Char) : strLoop start ['\\'] = (['\\'], []) := by
  simp [strLoop]

theorem strLoop_escape (start d : Char) (rest : List Char)
    (hd : (d = '"' || d = '\'' || d = 'n' || d = 't') = true) :
    strLoop start ('\\' :: d :: rest) =
      ((if d = 'n' then '\n' else if d = 't' then '\t' else d) :: (strLoop start rest).1,
       (strLoop start rest).2) := by
  conv_lhs => rw [strLoop.eq_def]
  simp [hd]

theorem strLoop_bad_escape (start d : Char) (rest : List Char)
    (hd : (d = '"' || d = '\'' || d = 'n' || d = 't') = false) :
    strLoop start ('\\' :: d :: rest) =
      ('\\' :: (strLoop start (d :: rest)).1, (strLoop start (d :: rest)).2) := by
  conv_lhs => rw [strLoop.eq_def]
  simp [hd]

theorem strLoop_close (start c : Char) (rest : List Char)
    (h1 : ¬ c = '\\') (h2 : c = start) :
    strLoop start (c :: rest) = ([], rest) := by
  subst h2
  conv_lhs => rw [strLoop.eq_def]
  simp [h1]

theorem strLoop_plain (start c : Char) (rest : List Char)
    (h1 : ¬ c = '\\') (h2 : ¬ c = start) :
    strLoop start (c :: rest) = (c :: (strLoop start rest).1, (strLoop start rest).2) := by
  conv_lhs => rw [strLoop.eq_def]
  simp [h1, h2]

theorem strLoop_snd_length_le (start : Char) (l : List Char) :
    (strLoop start l).2.length ≤ l.length := by
  suffices h : ∀ n (l : List Char), l.length ≤ n → (strLoop start l).2.length ≤ l.length from
    h l.length l le_rfl
  intro n
  induction n with
  | zero =>
    intro l hl
    match l with
    | [] => simp [strLoop_nil]
    | c :: rest => simp at hl
  | succ n ih =>
  intro l hl
  match l with
  | [] => simp [strLoop_nil]
  | c :: rest =>
    by_cases hc : c = '\\'
    · subst hc
      match rest with
      | [] => simp [strLoop_backslash_end]
      | d :: rest2 =>
        by_cases hd : (d = '"' || d = '\'' || d = 'n' || d = 't') = true
        · rw [strLoop_escape start d rest2 hd]
          have := ih rest2 (by simp at hl ⊢; omega)
          simp only [List.length_cons]
          omega
        · rw [strLoop_bad_escape start d rest2 (by simpa using hd)]
          have := ih (d :: rest2) (by simp at hl ⊢; omega)
          simp only [List.length_cons] at this ⊢
          omega
    · by_cases hs : c = start
      · rw [strLoop_close start c rest hc hs]
        simp
      · rw [strLoop_plain start c rest hc hs]
        have := ih rest (by simp at hl ⊢; omega)
        simp only [List.length_cons]
        omega

theorem key_words_len_pos :
    ∀ p ∈ key_words_for_tokens, 1 ≤ p.1.length := by decide

theorem symbols_cmp_len_pos :
    ∀ p ∈ symbols_for_comparison, 1 ≤ p.1.length := by decide

theorem splitTokenKeyWord_shrink (line : List Char) (t : Tok) (r : List Char)
    (h : splitTokenKeyWord line = some (t, r)) : r.length < line.length := by
  unfold splitTokenKeyWord at h
  split at h
  · exact absurd h (by simp)
  · next p hfind =>
    have hpre : p.1 <+: line :=
      List.isPrefixOf_iff_prefix.1 (by simpa using List.find?_some hfind)
    have hlen : 1 ≤ p.1.length :=
      key_words_len_pos p (List.mem_of_find?_eq_some hfind)
    have hle : p.1.length ≤ line.length := hpre.length_le
    split at h
    · next hdrop =>
      simp only [Option.some.injEq, Prod.mk.injEq] at h
      rw [← h.2]
      simp only [List.length_nil]
      omega
    · next c0 rest0 hdrop =>
      split at h
      · simp only [Option.some.injEq, Prod.mk.injEq] at h
        rw [← h.2, ← hdrop, List.length_drop]
        omega
      · exact absurd h (by simp)

theorem splitTokenComparison_shrink (line : List Char) (t : Tok) (r : List Char)
    (h : splitTokenComparison line = some (t, r)) : r.length < line.length := by
  unfold splitTokenComparison at h
  split at h
  · exact absurd h (by simp)
  · next p hfind =>
    have hpre : p.1 <+: line :=
      List.isPrefixOf_iff_prefix.1 (by simpa using List.find?_some hfind)
    have hlen : 1 ≤ p.1.length :=
      symbols_cmp_len_pos p (List.mem_of_find?_eq_some hfind)
    have hle : p.1.length ≤ line.length := hpre.length_le
    simp only [Option.some.injEq, Prod.mk.injEq] at h
    rw [← h.2, List.length_drop]
    omega

theorem splitTokenChar_shrink (line : List Char) (t : Tok) (r : List Char)
    (h : splitTokenChar line = some (t, r)) : r.length < line.length := by
  match line with
  | [] => simp [splitTokenChar] at h
  | c :: rest =>
    by_cases hmem : c ∈ lexChars
    · simp only [splitTokenChar, if_pos hmem, Option.some.injEq, Prod.mk.injEq] at h
      rw [← h.2]
      simp
    · simp [splitTokenChar, hmem] at h

theorem splitTokenNumber_shrink (line : List Char) (t : Tok) (r : List Char)
    (h : splitTokenNumber line = some (t, r)) : r.length < line.length := by
  by_cases hdig : (line.takeWhile Char.isDigit).isEmpty
  · simp [splitTokenNumber, hdig] at h
  · simp only [splitTokenNumber, hdig, Bool.false_eq_true, if_neg, if_false,
      Option.some.injEq, Prod.mk.injEq] at h
    have h1 : 1 ≤ (line.takeWhile Char.isDigit).length := by
      cases htw : line.takeWhile Char.isDigit with
      | nil => rw [htw] at hdig; simp at hdig
      | cons a as_ => simp
    have h2 := takeWhile_len_le Char.isDigit line
    rw [← h.2, List.length_drop]
    omega

theorem splitTokenString_shrink (line : List Char) (t : Tok) (r : List Char)
    (h : splitTokenString line = some (t, r)) : r.length < line.length := by
  match line with
  | [] => simp [splitTokenString] at h
  | c :: rest =>
    by_cases hq : (c = '"' || c = '\'') = true
    · simp only [splitTokenString, hq, if_pos, Option.some.injEq, Prod.mk.injEq] at h
      have := strLoop_snd_length_le c rest
      rw [← h.2]
      simp only [List.length_cons]
      omega
    · simp [splitTokenString, hq] at h

theorem splitTokenId_shrink (line : List Char) (t : Tok) (r : List Char)
    (h : splitTokenId line = some (t, r)) : r.length < line.length := by
  match line with
  | [] => simp [splitTokenId] at h
  | c :: rest =>
    by_cases hb : checkSymbolForIdBegin c
    · simp only [splitTokenId, if_pos hb, Option.some.injEq, Prod.mk.injEq] at h
      have h2 := takeWhile_len_le checkSymbolForId rest
      rw [← h.2, List.length_drop]
      simp only [List.length_cons]
      omega
    · simp [splitTokenId, hb] at h

theorem splitTokenLeft_length_lt (line : List Char) (hne : line ≠ [])
    (o : Option Tok) (r : List Char)
    (h : splitTokenLeft line = .ok (o, r)) : r.length < line.length := by
  match line, hne with
  | c :: rest, _ =>
    by_cases hc : c = '#'
    · rw [splitTokenLeft, if_pos hc] at h
      simp only [Except.ok.injEq, Prod.mk.injEq] at h
      rw [← h.2]
      simp
    · rw [splitTokenLeft, if_neg hc] at h
      cases hkw : splitTokenKeyWord (c :: rest) with
      | some p =>
        obtain ⟨t0, r0⟩ := p
        rw [hkw] at h
        simp only [Except.ok.injEq, Prod.mk.injEq] at h
        rw [← h.2]
        exact splitTokenKeyWord_shrink _ _ _ hkw
      | none =>
      rw [hkw] at h
      cases hcmp : splitTokenComparison (c :: rest) with
      | some p =>
        obtain ⟨t0, r0⟩ := p
        rw [hcmp] at h
        simp only [Except.ok.injEq, Prod.mk.injEq] at h
        rw [← h.2]
        exact splitTokenComparison_shrink _ _ _ hcmp
      | none =>
      rw [hcmp] at h
      cases hch : splitTokenChar (c :: rest) with
      | some p =>
        obtain ⟨t0, r0⟩ := p
        rw [hch] at h
        simp only [Except.ok.injEq, Prod.mk.injEq] at h
        rw [← h.2]
        exact splitTokenChar_shrink _ _ _ hch
      | none =>
      rw [hch] at h
      cases hnum : splitTokenNumber (c :: rest) with
      | some p =>
        obtain ⟨t0, r0⟩ := p
        rw [hnum] at h
        simp only [Except.ok.injEq, Prod.mk.injEq] at h
        rw [← h.2]
        exact splitTokenNumber_shrink _ _ _ hnum
      | none =>
      rw [hnum] at h
      cases hstr : splitTokenString (c :: rest) with
      | some p =>
        obtain ⟨t0, r0⟩ := p
        rw [hstr] at h
        simp only [Except.ok.injEq, Prod.mk.injEq] at h
        rw [← h.2]
        exact splitTokenString_shrink _ _ _ hstr
      | none =>
      rw [hstr] at h
      cases hid : splitTokenId (c :: rest) with
      | some p =>
        obtain ⟨t0, r0⟩ := p
        rw [hid] at h
        simp only [Except.ok.injEq, Prod.mk.injEq] at h
        rw [← h.2]
        exact splitTokenId_shrink _ _ _ hid
      | none =>
      rw [hid] at h
      simp at h

/-- The inner `while (!line_view.empty())` loop of the `Lexer`
constructor, as a fuel-indexed recursion: strip spaces, stop if the line
is exhausted, otherwise split one token and continue.  The fuel only
bounds the number of iterations; `tokenizeRest` below supplies
`line.length + 1`, which always suffices because `SplitTokenLeft`
strictly shrinks a nonempty line (`splitTokenLeft_length_lt`), so the
out-of-fuel branch is unreachable — `tokenizeRestGo_fuel` proves the
result does not depend on the fuel. -/
def tokenizeRestGo : Nat → List Char → Except LexErr (List Tok)
  | 0, _ => .error ⟨"out of fuel"⟩
  | fuel+1, line =>
    if (removeSpaceLeft line).2 = [] then .ok []
    else
      match splitTokenLeft (removeSpaceLeft line).2 with
      | .error e => .error e
      | .ok (otok, r) =>
        match tokenizeRestGo fuel r, otok with
        | .error e, _ => .error e
        | .ok toks, some t => .ok (t :: toks)
        | .ok toks, none => .ok toks

/-- The inner tokenization loop of the `Lexer` constructor. -/
def tokenizeRest (line : List Char) : Except LexErr (List Tok) :=
  tokenizeRestGo (line.length + 1) line

theorem tokenizeRestGo_fuel (f1 : Nat) :
    ∀ (f2 : Nat) (line : List Char), line.length < f1 → line.length < f2 →
      tokenizeRestGo f1 line = tokenizeRestGo f2 line := by
  induction f1 with
  | zero => intro f2 line h1 h2; omega
  | succ g1 ih =>
    intro f2 line h1 h2
    match f2, h2 with
    | g2+1, _ =>
      show tokenizeRestGo (g1+1) line = tokenizeRestGo (g2+1) line
      rw [tokenizeRestGo, tokenizeRestGo]
      by_cases hr : (removeSpaceLeft line).2 = []
      · simp [hr]
      · simp only [hr, if_neg, if_false]
        cases hs : splitTokenLeft (removeSpaceLeft line).2 with
        | error e => rfl
        | ok p =>
          obtain ⟨otok, r⟩ := p
          have hlt : r.length < line.length :=
            Nat.lt_of_lt_of_le (splitTokenLeft_length_lt _ hr otok r hs)
              (removeSpaceLeft_length_le line)
          dsimp only
          rw [ih g2 r (by omega) (by omega)]

/-- The indentation tokens emitted at the start of a non-blank line
(`Lexer::Lexer`, lexer.cpp lines 314-321). -/
def indentToks (prev cur : Nat) : List Tok :=
  if cur > prev then [Tok.indent]
  else if cur < prev then List.replicate ((prev - cur) / 2) Tok.dedent
  else []

/-- One iteration of the `while (std::getline(...))` loop of the `Lexer`
constructor: processes one physical line given the recorded indentation
`prev`, returning the tokens the line contributes and the new recorded
indentation.  A line that is empty after stripping spaces is skipped
(`continue`) before the odd-indent check and before `prev_indent` is
updated; every other line (including `#` comment lines) goes through the
indent logic first. -/
def processLine (prev : Nat) (line : List Char) : Except LexErr (List Tok × Nat) :=
  let w := (removeSpaceLeft line).1
  let rest := (removeSpaceLeft line).2
  if rest = [] then .ok ([], prev)
  else if w % 2 ≠ 0 then .error ⟨"Error of indent"⟩
  else
    match tokenizeRest rest with
    | .error e => .error e
    | .ok toks =>
      let all := indentToks prev w ++ toks
      if all = [] then .ok ([], w) else .ok (all ++ [Tok.newline], w)

/-- The line loop of the `Lexer` constructor, threading `prev_indent`;
at end of input, closing `Dedent` tokens and `Eof` are appended. -/
def lexLines : List (List Char) → Nat → Except LexErr (List Tok)
  | [], prev => .ok (List.replicate (prev / 2) Tok.dedent ++ [Tok.eof])
  | l :: ls, prev =>
    match processLine prev l with
    | .error e => .error e
    | .ok (toks, prev2) =>
      match lexLines ls prev2 with
      | .error e => .error e
      | .ok toks2 => .ok (toks ++ toks2)

/-- Source: `Lexer::Lexer(std::istream&)`: the input stream, presented as its
list of physical lines (the successive `std::getline` results). -/
def lexer (input : List (List Char)) : Except LexErr (List Tok) :=
  lexLines input 0

/-! ## Runtime value model (`runtime.h` / `runtime.cpp`)

An `ObjectHolder` either is empty (the Mython `None`) or designates an
object.  `Number`, `String` and `Bool` objects are immutable and never
aliased observably, so their holders are modelled by value.  `Class`
objects are immutable and created before execution starts (by the
parser, out of scope here); a program carries a fixed table
`env : List ClassData` and a holder designates a class by its index.
`ClassInstance` objects are mutable and aliased: they live in an
explicit heap (`St.heap`) and a holder designates one by its address,
together with the flag distinguishing an owning holder
(`ObjectHolder::Own`) from a non-owning one (`ObjectHolder::Share`);
instances are never destroyed during evaluation, so reference counts
are not modelled further. -/

inductive Obj where
  /-- the empty holder, `ObjectHolder::None()` -/
  | none
  /-- an owned `runtime::Number` (C++ `int`, modelled as `Int`) -/
  | num (n : Int)
  /-- an owned `runtime::String` -/
  | str (s : String)
  /-- an owned `runtime::Bool` -/
  | bool (b : Bool)
  /-- a holder designating the `runtime::Class` at index `i` of the class table -/
  | cls (i : Nat)
  /-- a holder designating the `runtime::ClassInstance` at heap address
  `addr`; `owning` is `true` for `ObjectHolder::Own` and `false` for
  `ObjectHolder::Share` -/
  | inst (addr : Nat) (owning : Bool)
  deriving DecidableEq, Repr

/-- Source: `runtime::IsTrue` (runtime.cpp): `String` is truthy iff nonempty,
`Number` iff nonzero, `Bool` by its value; everything else (the empty
holder, classes, instances) is falsy. -/
def IsTrue : Obj → Bool
  | Obj.str s => !(s == "")
  | Obj.num n => !(n == 0)
  | Obj.bool b => b
  | _ => false

/-- Source: `runtime::Closure`: `std::map<std::string, ObjectHolder>`, modelled
as an association list with unique keys; lookup takes the first match,
so the map ordering is irrelevant to every observable operation. -/
abbrev Closure := List (String × Obj)

/-- Source: `closure.find(k)` -/
def clookup (clo : Closure) (k : String) : Option Obj :=
  (clo.find? (fun p => p.1 = k)).map (fun p => p.2)

/-- Source: `closure[k] = v`: overwrite the entry in place, or append a new one. -/
def cinsert : Closure → String → Obj → Closure
  | [], k, v => [(k, v)]
  | p :: rest, k, v => if p.1 = k then (k, v) :: rest else p :: cinsert rest k v

/-- Source: `closure.emplace(k, v)`: insert only if the key is absent
(`std::map::emplace` never overwrites).  Also models `closure[k]` used
for its side effect of default-constructing an absent entry, with
`v := Obj.none`. -/
def cemplace (clo : Closure) (k : String) (v : Obj) : Closure :=
  match clookup clo k with
  | some _ => clo
  | Option.none => clo ++ [(k, v)]

/-- The mutable part of a `runtime::ClassInstance`: its class (the
`cls_` reference, as an index into the class table) and its fields
closure `closure_`. -/
structure Inst where
  cls : Nat
  fields : Closure
  deriving DecidableEq, Repr

/-- The mutable program state: the heap of class instances and the
characters written so far to `context.GetOutputStream()`. -/
structure St where
  heap : List Inst
  output : String
  deriving DecidableEq, Repr

/-- Source: `Fields()` of the instance at address `a` (empty for a dangling
address, which no reachable state produces). -/
def fieldsOf (st : St) (a : Nat) : Closure :=
  match st.heap[a]? with
  | some ins => ins.fields
  | Option.none => []

/-- Replace the instance at address `a` (no-op on a dangling address). -/
def updateInst (st : St) (a : Nat) (f : Inst → Inst) : St :=
  match st.heap[a]? with
  | some ins => { st with heap := st.heap.set a (f ins) }
  | Option.none => st

/-- How an evaluation step ends abnormally.  `rt` is a thrown
`std::runtime_error`; `ret` is a thrown `ObjectHolder`, the non-local
exit used by `ast::Return`; `ub` marks the executions that dereference
a null `TryAs` result in the C++ (undefined behaviour, reachable only
from ASTs the parser never builds). -/
inductive Exc where
  | rt (msg : String)
  | ret (o : Obj)
  | ub
  deriving DecidableEq, Repr

/-- The loop of `ast::VariableValue::Execute` (statement.cpp): `obj`
starts as the empty holder; each name is looked up in the current
closure (a missing name is a runtime error), `obj` becomes the value
found, and only when that value is a `ClassInstance` does the current
closure move to the instance fields — otherwise it stays unchanged. -/
def varLookup (st : St) : Closure → List String → Obj → Except Exc Obj
  | _, [], obj => .ok obj
  | clo, n :: rest, _ =>
    match clookup clo n with
    | Option.none => .error (Exc.rt ("Variable " ++ n ++ " not found"))
    | some v =>
      match v with
      | Obj.inst a ow => varLookup st (fieldsOf st a) rest (Obj.inst a ow)
      | _ => varLookup st clo rest v

/-- The comparator argument of `ast::Comparison`: the parser passes one
of the six `runtime` comparison functions. -/
inductive Cmp where
  | eq
  | notEq
  | less
  | greater
  | lessOrEq
  | greaterOrEq
  deriving DecidableEq, Repr

/-- The statement/expression nodes of `ast` (statement.cpp).  The
constructors `numConst`, `strConst`, `boolConst` and `noneConst` are the
literal nodes; their `Execute` is modelled from the spec: statement.h
(which defines the literal `ValueStatement` nodes) is not among the
sources, and §4.3 of the spec specifies that literals produce the
corresponding owned holder, `None` producing `ObjectHolder::None()`.
`newInstance` holds its `const runtime::Class&` as an index into the
class table, and `classDef` holds the `ObjectHolder cls_` of a
`ClassDefinition` the same way. -/
inductive Stmt where
  | assign (var : String) (rv : Stmt)
  | varVal (names : List String)
  | print (args : List Stmt)
  | methodCall (obj : Stmt) (method : String) (args : List Stmt)
  | stringify (arg : Stmt)
  | add (lhs rhs : Stmt)
  | sub (lhs rhs : Stmt)
  | mult (lhs rhs : Stmt)
  | div (lhs rhs : Stmt)
  | compound (stmts : List Stmt)
  | ret (statement : Stmt)
  | classDef (i : Nat)
  | fieldAssign (objectPath : List String) (field : String) (rv : Stmt)
  | ifElse (cond thenBody : Stmt) (elseBody : Option Stmt)
  | orOp (lhs rhs : Stmt)
  | andOp (lhs rhs : Stmt)
  | notOp (arg : Stmt)
  | comparison (cmp : Cmp) (lhs rhs : Stmt)
  | newInstance (cls : Nat) (args : List Stmt)
  | methodBody (body : Stmt)
  | numConst (n : Int)
  | strConst (s : String)
  | boolConst (b : Bool)
  | noneConst

/-- Source: `runtime::Method`: name, formal parameters, body. -/
structure MethodD where
  name : String
  formal_params : List String
  body : Stmt

/-- Source: `runtime::Class`: name, methods (kept sorted by name by the
constructor; `GetMethod` then finds the first method with the wanted
name), and the optional non-owning parent reference, as an index into
the class table. -/
structure ClassData where
  name : String
  methods : List MethodD
  parent : Option Nat

/-- The `while (ptr_class && !mth)` loop of `runtime::Class::GetMethod`:
search this class, then the parent chain.  The chain of a well-formed
class table is acyclic, so `env.length + 1` steps of fuel (supplied by
`getMethod`) always suffice. -/
def getMethodAux (env : List ClassData) (nm : String) : Nat → Option Nat → Option MethodD
  | 0, _ => Option.none
  | _, Option.none => Option.none
  | fuel+1, some i =>
    match env[i]? with
    | Option.none => Option.none
    | some cd =>
      match cd.methods.find? (fun m => m.name = nm) with
      | some m => some m
      | Option.none => getMethodAux env nm fuel cd.parent

/-- Source: `runtime::Class::GetMethod`. -/
def getMethod (env : List ClassData) (i : Nat) (nm : String) : Option MethodD :=
  getMethodAux env nm (env.length + 1) (some i)

/-- Source: `runtime::ClassInstance::HasMethod`: the method found along the
chain (the first one with the wanted name) must have exactly `argc`
formal parameters. -/
def hasMethod (env : List ClassData) (i : Nat) (nm : String) (argc : Nat) : Bool :=
  match getMethod env i nm with
  | some m => m.formal_params.length == argc
  | Option.none => false

/-- All methods on the ancestor chain of class `i`, own class first
(auxiliary vocabulary for stating chain-wide properties). -/
def chainMethodsAux (env : List ClassData) : Nat → Option Nat → List MethodD
  | 0, _ => []
  | _, Option.none => []
  | fuel+1, some i =>
    match env[i]? with
    | Option.none => []
    | some cd => cd.methods ++ chainMethodsAux env fuel cd.parent

/-- All methods on the ancestor chain of class `i`. -/
def chainMethods (env : List ClassData) (i : Nat) : List MethodD :=
  chainMethodsAux env (env.length + 1) (some i)

theorem getMethodAux_mem_chain (env : List ClassData) (nm : String) :
    ∀ (fuel : Nat) (oi : Option Nat) (m : MethodD),
      getMethodAux env nm fuel oi = some m →
      m ∈ chainMethodsAux env fuel oi ∧ m.name = nm := by
  intro fuel
  induction fuel with
  | zero => intro oi m h; simp [getMethodAux] at h
  | succ g ih =>
    intro oi m h
    match oi with
    | Option.none => simp [getMethodAux] at h
    | some i =>
      rw [getMethodAux] at h
      cases hcd : env[i]? with
      | none => rw [hcd] at h; simp at h
      | some cd =>
        rw [hcd] at h
        dsimp only at h
        cases hf : cd.methods.find? (fun m => m.name = nm) with
        | some m0 =>
          rw [hf] at h
          simp only [Option.some.injEq] at h
          subst h
          constructor
          · simp [chainMethodsAux, hcd]
            exact Or.inl (List.mem_of_find?_eq_some hf)
          · simpa using List.find?_some hf
        | none =>
          rw [hf] at h
          have := ih cd.parent m h
          constructor
          · simp [chainMethodsAux, hcd]
            exact Or.inr this.1
          · exact this.2

theorem hasMethod_false_of_no_arity (env : List ClassData) (i : Nat)
    (nm : String) (argc : Nat)
    (h : ∀ m ∈ chainMethods env i, m.name = nm → m.formal_params.length ≠ argc) :
    hasMethod env i nm argc = false := by
  unfold hasMethod
  cases hg : getMethod env i nm with
  | none => rfl
  | some m =>
    have hm := getMethodAux_mem_chain env nm (env.length + 1) (some i) m hg
    have := h m hm.1 hm.2
    simp [this]

/-- The closure-building loop of `runtime::ClassInstance::Call`:
`closure.emplace(formal_params[i], actual_args[i])` for each parameter
(first binding wins on duplicates). -/
def emplaceAll : Closure → List String → List Obj → Closure
  | clo, p :: ps, a :: rest => emplaceAll (cemplace clo p a) ps rest
  | clo, _, _ => clo

/-- The full call closure of `runtime::ClassInstance::Call` for the
instance at `addr`: the parameter bindings followed by
`closure.emplace("self", ObjectHolder::Share(*this))`. -/
def buildCallClosure (params : List String) (args : List Obj) (addr : Nat) : Closure :=
  cemplace (emplaceAll [] params args) "self" (Obj.inst addr false)

/-- Rendering of the instance address by `os << this` in
`ClassInstance::Print` for an instance with no zero-argument `__str__`.
The concrete text is implementation-defined in the C++ (a pointer
value); it is abstracted here as the heap address. -/
def instRepr (addr : Nat) : String :=
  "0x" ++ toString addr


/-- Lexicographic `<` on character lists (`std::string::operator<`). -/
def charListLt : List Char → List Char → Bool
  | [], [] => false
  | [], _ :: _ => true
  | _ :: _, [] => false
  | a :: as_, b :: bs =>
    if a < b then true
    else if b < a then false
    else charListLt as_ bs

/-! ## The evaluator (`statement.cpp` and the dispatch parts of `runtime.cpp`)

`Execute` is modelled as a fuel-indexed interpreter: every function of
the mutual block consumes one unit of fuel per C++ function call and
returns `Option.none` when the fuel runs out, so any terminating C++
execution is reproduced exactly by every sufficiently large fuel.  A
result `some (clo, st, r)` carries the final value of the by-reference
`closure` argument, the final heap/output state, and either the
returned holder or the exception that escaped. -/

mutual

/-- Source: `Statement::Execute(closure, context)`, by node kind (statement.cpp). -/
def evalStmt (env : List ClassData) : Nat → Stmt → Closure → St →
    Option (Closure × St × Except Exc Obj)
  | 0, _, _, _ => Option.none
  | fuel+1, stmt, clo, st =>
    match stmt with
    | Stmt.numConst n => some (clo, st, .ok (Obj.num n))
    | Stmt.strConst s => some (clo, st, .ok (Obj.str s))
    | Stmt.boolConst b => some (clo, st, .ok (Obj.bool b))
    | Stmt.noneConst => some (clo, st, .ok Obj.none)
    | Stmt.assign var rv =>
      -- Assignment::Execute: `auto& var = closure[var_];` default-constructs
      -- the entry first; only then is the right-hand side evaluated and the
      -- result assigned to the entry.
      match evalStmt env fuel rv (cemplace clo var Obj.none) st with
      | Option.none => Option.none
      | some (c1, s1, .error e) => some (c1, s1, .error e)
      | some (c1, s1, .ok v) => some (cinsert c1 var v, s1, .ok v)
    | Stmt.varVal names => some (clo, st, varLookup st clo names Obj.none)
    | Stmt.print args =>
      match printArgs env fuel true args clo st with
      | Option.none => Option.none
      | some (c1, s1, .error e) => some (c1, s1, .error e)
      | some (c1, s1, .ok _) =>
        some (c1, { s1 with output := s1.output ++ "\n" }, .ok Obj.none)
    | Stmt.methodCall obj method args =>
      match evalStmt env fuel obj clo st with
      | Option.none => Option.none
      | some (c1, s1, .error e) => some (c1, s1, .error e)
      | some (c1, s1, .ok objv) =>
        match evalArgs env fuel args c1 s1 with
        | Option.none => Option.none
        | some (c2, s2, .error e) => some (c2, s2, .error e)
        | some (c2, s2, .ok argv) =>
          match objv with
          | Obj.inst a _ =>
            match callMethod env fuel a method argv s2 with
            | Option.none => Option.none
            | some (s3, r) => some (c2, s3, r)
          | _ => some (c2, s2, .error Exc.ub)  -- Call through a null TryAs result
    | Stmt.stringify arg =>
      -- Stringify::Execute stores `obj = argument_->Execute(...)`, tests it,
      -- and then calls `argument_->Execute(...)` a second time to print.
      match evalStmt env fuel arg clo st with
      | Option.none => Option.none
      | some (c1, s1, .error e) => some (c1, s1, .error e)
      | some (c1, s1, .ok v) =>
        if v = Obj.none then some (c1, s1, .ok (Obj.str ("None")))
        else
          match evalStmt env fuel arg c1 s1 with
          | Option.none => Option.none
          | some (c2, s2, .error e) => some (c2, s2, .error e)
          | some (c2, s2, .ok v2) =>
            match v2 with
            | Obj.none => some (c2, s2, .error Exc.ub)  -- operator-> on the empty holder
            | _ =>
              match printObj env fuel v2 s2 with
              | Option.none => Option.none
              | some (s3, .error e) => some (c2, s3, .error e)
              | some (s3, .ok rendered) => some (c2, s3, .ok (Obj.str rendered))
    | Stmt.add l r =>
      match evalStmt env fuel l clo st with
      | Option.none => Option.none
      | some (c1, s1, .error e) => some (c1, s1, .error e)
      | some (c1, s1, .ok lv) =>
        match evalStmt env fuel r c1 s1 with
        | Option.none => Option.none
        | some (c2, s2, .error e) => some (c2, s2, .error e)
        | some (c2, s2, .ok rv) =>
          match lv, rv with
          | Obj.num a, Obj.num b => some (c2, s2, .ok (Obj.num (a + b)))
          | Obj.str a, Obj.str b => some (c2, s2, .ok (Obj.str (a ++ b)))
          | Obj.inst a _, _ =>
            match s2.heap[a]? with
            | Option.none => some (c2, s2, .error Exc.ub)
            | some ins =>
              if hasMethod env ins.cls ("__add__") 1 then
                match callMethod env fuel a ("__add__") [rv] s2 with
                | Option.none => Option.none
                | some (s3, r0) => some (c2, s3, r0)
              else some (c2, s2, .error (Exc.rt ("no Add operation for such data types")))
          | _, _ => some (c2, s2, .error (Exc.rt ("no Add operation for such data types")))
    | Stmt.sub l r =>
      match evalStmt env fuel l clo st with
      | Option.none => Option.none
      | some (c1, s1, .error e) => some (c1, s1, .error e)
      | some (c1, s1, .ok lv) =>
        match evalStmt env fuel r c1 s1 with
        | Option.none => Option.none
        | some (c2, s2, .error e) => some (c2, s2, .error e)
        | some (c2, s2, .ok rv) =>
          match lv, rv with
          | Obj.num a, Obj.num b => some (c2, s2, .ok (Obj.num (a - b)))
          | _, _ => some (c2, s2, .error (Exc.rt ("no Sub operation for such data types")))
    | Stmt.mult l r =>
      match evalStmt env fuel l clo st with
      | Option.none => Option.none
      | some (c1, s1, .error e) => some (c1, s1, .error e)
      | some (c1, s1, .ok lv) =>
        match evalStmt env fuel r c1 s1 with
        | Option.none => Option.none
        | some (c2, s2, .error e) => some (c2, s2, .error e)
        | some (c2, s2, .ok rv) =>
          match lv, rv with
          | Obj.num a, Obj.num b => some (c2, s2, .ok (Obj.num (a * b)))
          | _, _ => some (c2, s2, .error (Exc.rt ("no Mult operation for such data types")))
    | Stmt.div l r =>
      match evalStmt env fuel l clo st with
      | Option.none => Option.none
      | some (c1, s1, .error e) => some (c1, s1, .error e)
      | some (c1, s1, .ok lv) =>
        match evalStmt env fuel r c1 s1 with
        | Option.none => Option.none
        | some (c2, s2, .error e) => some (c2, s2, .error e)
        | some (c2, s2, .ok rv) =>
          match lv, rv with
          | Obj.num a, Obj.num b =>
            if b == 0 then some (c2, s2, .error (Exc.rt ("Error div to null")))
            else some (c2, s2, .ok (Obj.num (Int.tdiv a b)))  -- C++ `/` truncates toward zero
          | _, _ => some (c2, s2, .error (Exc.rt ("no Div operation for such data types")))
    | Stmt.compound stmts =>
      -- Compound::Execute runs each child for effect and returns None;
      -- the evaluation effects coincide with evalArgs, whose collected
      -- values are simply dropped.
      match evalArgs env fuel stmts clo st with
      | Option.none => Option.none
      | some (c1, s1, .error e) => some (c1, s1, .error e)
      | some (c1, s1, .ok _) => some (c1, s1, .ok Obj.none)
    | Stmt.ret s =>
      -- Return::Execute: `throw statement_->Execute(closure, context);`
      match evalStmt env fuel s clo st with
      | Option.none => Option.none
      | some (c1, s1, .error e) => some (c1, s1, .error e)
      | some (c1, s1, .ok v) => some (c1, s1, .error (Exc.ret v))
    | Stmt.classDef i =>
      match env[i]? with
      | Option.none => some (clo, st, .error Exc.ub)  -- TryAs<Class> null dereference
      | some cd => some (cinsert clo cd.name (Obj.cls i), st, .ok (Obj.cls i))
    | Stmt.fieldAssign path field rv =>
      match varLookup st clo path Obj.none with
      | .error e => some (clo, st, .error e)
      | .ok objv =>
        match objv with
        | Obj.inst a _ =>
          match evalStmt env fuel rv clo st with
          | Option.none => Option.none
          | some (c1, s1, .error e) => some (c1, s1, .error e)
          | some (c1, s1, .ok v) =>
            some (c1,
              updateInst s1 a (fun ins => { ins with fields := cinsert ins.fields field v }),
              .ok v)
        | _ => some (clo, st, .error Exc.ub)  -- Fields() through a null TryAs result
    | Stmt.ifElse cond thenB elseB =>
      match evalStmt env fuel cond clo st with
      | Option.none => Option.none
      | some (c1, s1, .error e) => some (c1, s1, .error e)
      | some (c1, s1, .ok v) =>
        if IsTrue v then evalStmt env fuel thenB c1 s1
        else
          match elseB with
          | some eb => evalStmt env fuel eb c1 s1
          | Option.none => some (c1, s1, .ok Obj.none)
    | Stmt.orOp l r =>
      -- Or::Execute: `IsTrue(lhs_->Execute(...)) || IsTrue(rhs_->Execute(...))`;
      -- the built-in `||` short-circuits, so the right operand is executed
      -- only when the left one is falsy.
      match evalStmt env fuel l clo st with
      | Option.none => Option.none
      | some (c1, s1, .error e) => some (c1, s1, .error e)
      | some (c1, s1, .ok v1) =>
        if IsTrue v1 then some (c1, s1, .ok (Obj.bool true))
        else
          match evalStmt env fuel r c1 s1 with
          | Option.none => Option.none
          | some (c2, s2, .error e) => some (c2, s2, .error e)
          | some (c2, s2, .ok v2) => some (c2, s2, .ok (Obj.bool (IsTrue v2)))
    | Stmt.andOp l r =>
      -- And::Execute: the built-in `&&` short-circuits symmetrically.
      match evalStmt env fuel l clo st with
      | Option.none => Option.none
      | some (c1, s1, .error e) => some (c1, s1, .error e)
      | some (c1, s1, .ok v1) =>
        if IsTrue v1 then
          match evalStmt env fuel r c1 s1 with
          | Option.none => Option.none
          | some (c2, s2, .error e) => some (c2, s2, .error e)
          | some (c2, s2, .ok v2) => some (c2, s2, .ok (Obj.bool (IsTrue v2)))
        else some (c1, s1, .ok (Obj.bool false))
    | Stmt.notOp a =>
      match evalStmt env fuel a clo st with
      | Option.none => Option.none
      | some (c1, s1, .error e) => some (c1, s1, .error e)
      | some (c1, s1, .ok v) => some (c1, s1, .ok (Obj.bool (!IsTrue v)))
    | Stmt.comparison cmp l r =>
      -- Comparison::Execute evaluates both operands as the two arguments
      -- of `cmp_(...)`; their evaluation order is unspecified in C++ and
      -- modelled here as left before right.
      match evalStmt env fuel l clo st with
      | Option.none => Option.none
      | some (c1, s1, .error e) => some (c1, s1, .error e)
      | some (c1, s1, .ok lv) =>
        match evalStmt env fuel r c1 s1 with
        | Option.none => Option.none
        | some (c2, s2, .error e) => some (c2, s2, .error e)
        | some (c2, s2, .ok rv) =>
          match cmpApply env fuel cmp lv rv s2 with
          | Option.none => Option.none
          | some (s3, .error e) => some (c2, s3, .error e)
          | some (s3, .ok b) => some (c2, s3, .ok (Obj.bool b))
    | Stmt.newInstance ci args =>
      -- NewInstance::Execute: construct the instance, bind its own field
      -- "self" to the OWNING holder `obj_holder`, then look for a
      -- matching-arity __init__; only if found are the argument
      -- expressions evaluated and __init__ called.
      match evalArgsIfInit env fuel ci args clo
          { st with heap := st.heap ++
              [{ cls := ci, fields := [(("self"), Obj.inst st.heap.length true)] }] }
          st.heap.length with
      | Option.none => Option.none
      | some (c1, s1, r) => some (c1, s1, r)
    | Stmt.methodBody body =>
      -- MethodBody::Execute: `try { body } catch (ObjectHolder obj) { return obj; }`
      -- catches exactly the Return unwind; runtime errors pass through.
      match evalStmt env fuel body clo st with
      | Option.none => Option.none
      | some (c1, s1, .ok _) => some (c1, s1, .ok Obj.none)
      | some (c1, s1, .error (Exc.ret v)) => some (c1, s1, .ok v)
      | some (c1, s1, .error e) => some (c1, s1, .error e)

/-- The `__init__` half of `NewInstance::Execute`: the instance at
`addr` has just been constructed (its "self" field set); if a
matching-arity `__init__` exists, evaluate the arguments left to right
and call it, discarding its result; otherwise do nothing further.
Either way the owning holder of the new instance is the result. -/
def evalArgsIfInit (env : List ClassData) : Nat → Nat → List Stmt → Closure → St → Nat →
    Option (Closure × St × Except Exc Obj)
  | 0, _, _, _, _, _ => Option.none
  | fuel+1, ci, args, clo, st, addr =>
    if hasMethod env ci ("__init__") args.length then
      match evalArgs env fuel args clo st with
      | Option.none => Option.none
      | some (c1, s1, .error e) => some (c1, s1, .error e)
      | some (c1, s1, .ok argv) =>
        match callMethod env fuel addr ("__init__") argv s1 with
        | Option.none => Option.none
        | some (s2, .error e) => some (c1, s2, .error e)
        | some (s2, .ok _) => some (c1, s2, .ok (Obj.inst addr true))
    else some (clo, st, .ok (Obj.inst addr true))

/-- The argument-evaluation loops (`for (auto& ex : args_) {
args.push_back(ex->Execute(closure, context)); }` in `MethodCall` and
`NewInstance`, and the statement loop of `Compound`, whose values are
dropped). -/
def evalArgs (env : List ClassData) : Nat → List Stmt → Closure → St →
    Option (Closure × St × Except Exc (List Obj))
  | 0, _, _, _ => Option.none
  | _+1, [], clo, st => some (clo, st, .ok [])
  | fuel+1, a :: rest, clo, st =>
    match evalStmt env fuel a clo st with
    | Option.none => Option.none
    | some (c1, s1, .error e) => some (c1, s1, .error e)
    | some (c1, s1, .ok v) =>
      match evalArgs env fuel rest c1 s1 with
      | Option.none => Option.none
      | some (c2, s2, .error e) => some (c2, s2, .error e)
      | some (c2, s2, .ok vs) => some (c2, s2, .ok (v :: vs))

/-- The loop of `Print::Execute`: a space before every argument except
the first, then the argument's rendering — `"None"` for an empty
holder, `obj->Print` otherwise — all written to the context output. -/
def printArgs (env : List ClassData) : Nat → Bool → List Stmt → Closure → St →
    Option (Closure × St × Except Exc Unit)
  | 0, _, _, _, _ => Option.none
  | _+1, _, [], clo, st => some (clo, st, .ok ())
  | fuel+1, first, a :: rest, clo, st =>
    match evalStmt env fuel a clo
        (if first then st else { st with output := st.output ++ " " }) with
    | Option.none => Option.none
    | some (c1, s1, .error e) => some (c1, s1, .error e)
    | some (c1, s1, .ok v) =>
      match v with
      | Obj.none => printArgs env fuel false rest c1 { s1 with output := s1.output ++ ("None") }
      | _ =>
        match printObj env fuel v s1 with
        | Option.none => Option.none
        | some (s2, .error e) => some (c1, s2, .error e)
        | some (s2, .ok rendered) =>
          printArgs env fuel false rest c1 { s2 with output := s2.output ++ rendered }

/-- Source: `Object::Print(os, context)` for each object kind: `Number` and
`String` print their value (`runtime.h` value objects; rendering per
spec §3), `Bool::Print` prints `True`/`False`, `Class::Print` prints
`Class <name>`, and `ClassInstance::Print` dispatches a zero-argument
`__str__` when the class has one (printing the holder it returns),
falling back to `os << this` (see `instRepr`).  The rendered text is
returned; any output a `__str__` body itself performs through the
context goes to the state. -/
def printObj (env : List ClassData) : Nat → Obj → St → Option (St × Except Exc String)
  | 0, _, _ => Option.none
  | fuel+1, o, st =>
    match o with
    | Obj.none => some (st, .error Exc.ub)  -- operator-> on the empty holder
    | Obj.num n => some (st, .ok (toString n))
    | Obj.str s => some (st, .ok s)
    | Obj.bool b => some (st, .ok (if b then ("True") else ("False")))
    | Obj.cls i =>
      match env[i]? with
      | some cd => some (st, .ok ("Class " ++ cd.name))
      | Option.none => some (st, .error Exc.ub)
    | Obj.inst a _ =>
      match st.heap[a]? with
      | Option.none => some (st, .error Exc.ub)
      | some ins =>
        if hasMethod env ins.cls ("__str__") 0 then
          match callMethod env fuel a ("__str__") [] st with
          | Option.none => Option.none
          | some (s1, .error e) => some (s1, .error e)
          | some (s1, .ok v) => printObj env fuel v s1
        else some (st, .ok (instRepr a))

/-- Source: `runtime::ClassInstance::Call(method, actual_args, context)`:
arity-checked lookup along the ancestor chain, a fresh closure with the
parameters and a `Share` of the instance bound to "self", and execution
of the method body in it.  The body's final closure is discarded. -/
def callMethod (env : List ClassData) : Nat → Nat → String → List Obj → St →
    Option (St × Except Exc Obj)
  | 0, _, _, _, _ => Option.none
  | fuel+1, addr, nm, args, st =>
    match st.heap[addr]? with
    | Option.none => some (st, .error Exc.ub)
    | some ins =>
      if hasMethod env ins.cls nm args.length then
        match getMethod env ins.cls nm with
        | Option.none => some (st, .error Exc.ub)  -- unreachable: hasMethod holds
        | some m =>
          match evalStmt env fuel m.body (buildCallClosure m.formal_params args addr) st with
          | Option.none => Option.none
          | some (_, s1, r) => some (s1, r)
      else some (st, .error (Exc.rt ("There is no such method: " ++ nm)))

/-- Source: `runtime::Equal(lhs, rhs, context)`: both empty, same leaf kinds,
or `__eq__` dispatch on a left-hand instance; otherwise a runtime
error. -/
def equalFn (env : List ClassData) : Nat → Obj → Obj → St → Option (St × Except Exc Bool)
  | 0, _, _, _ => Option.none
  | fuel+1, l, r, st =>
    match l, r with
    | Obj.none, Obj.none => some (st, .ok true)
    | Obj.str a, Obj.str b => some (st, .ok (a == b))
    | Obj.num a, Obj.num b => some (st, .ok (a == b))
    | Obj.bool a, Obj.bool b => some (st, .ok (a == b))
    | Obj.inst a _, _ =>
      match st.heap[a]? with
      | Option.none => some (st, .error Exc.ub)
      | some ins =>
        if hasMethod env ins.cls ("__eq__") 1 then
          match callMethod env fuel a ("__eq__") [r] st with
          | Option.none => Option.none
          | some (s1, .error e) => some (s1, .error e)
          | some (s1, .ok v) => some (s1, .ok (IsTrue v))
        else some (st, .error (Exc.rt ("logic error in Equal")))
    | _, _ => some (st, .error (Exc.rt ("logic error in Equal")))

/-- Source: `runtime::Less(lhs, rhs, context)`: both holders must be non-empty;
leaf kinds compare by `<`, a left-hand instance dispatches `__lt__`;
otherwise a runtime error. -/
def lessFn (env : List ClassData) : Nat → Obj → Obj → St → Option (St × Except Exc Bool)
  | 0, _, _, _ => Option.none
  | fuel+1, l, r, st =>
    if l = Obj.none || r = Obj.none then
      some (st, .error (Exc.rt ("logic_error in Less")))
    else
      match l, r with
      | Obj.str a, Obj.str b => some (st, .ok (charListLt a.toList b.toList))
      | Obj.num a, Obj.num b => some (st, .ok (decide (a < b)))
      | Obj.bool a, Obj.bool b => some (st, .ok (!a && b))
      | Obj.inst a _, _ =>
        match st.heap[a]? with
        | Option.none => some (st, .error Exc.ub)
        | some ins =>
          if hasMethod env ins.cls ("__lt__") 1 then
            match callMethod env fuel a ("__lt__") [r] st with
            | Option.none => Option.none
            | some (s1, .error e) => some (s1, .error e)
            | some (s1, .ok v) => some (s1, .ok (IsTrue v))
          else some (st, .error (Exc.rt ("logic_error in Less")))
      | _, _ => some (st, .error (Exc.rt ("logic_error in Less")))

/-- The six `runtime` comparators, with the short-circuit structure of
their C++ definitions: `NotEqual = !Equal`, `Greater = !Less && !Equal`,
`LessOrEqual = Less || Equal`, `GreaterOrEqual = !Less`. -/
def cmpApply (env : List ClassData) : Nat → Cmp → Obj → Obj → St →
    Option (St × Except Exc Bool)
  | 0, _, _, _, _ => Option.none
  | fuel+1, c, l, r, st =>
    match c with
    | Cmp.eq => equalFn env fuel l r st
    | Cmp.notEq =>
      match equalFn env fuel l r st with
      | Option.none => Option.none
      | some (s1, .error e) => some (s1, .error e)
      | some (s1, .ok b) => some (s1, .ok (!b))
    | Cmp.less => lessFn env fuel l r st
    | Cmp.greater =>
      match lessFn env fuel l r st with
      | Option.none => Option.none
      | some (s1, .error e) => some (s1, .error e)
      | some (s1, .ok true) => some (s1, .ok false)
      | some (s1, .ok false) =>
        match equalFn env fuel l r s1 with
        | Option.none => Option.none
        | some (s2, .error e) => some (s2, .error e)
        | some (s2, .ok b) => some (s2, .ok (!b))
    | Cmp.lessOrEq =>
      match lessFn env fuel l r st with
      | Option.none => Option.none
      | some (s1, .error e) => some (s1, .error e)
      | some (s1, .ok true) => some (s1, .ok true)
      | some (s1, .ok false) => equalFn env fuel l r s1
    | Cmp.greaterOrEq =>
      match lessFn env fuel l r st with
      | Option.none => Option.none
      | some (s1, .error e) => some (s1, .error e)
      | some (s1, .ok b) => some (s1, .ok (!b))

end


/-! ## Closure lemmas -/

theorem clookup_cons (p : String × Obj) (rest : Closure) (k : String) :
    clookup (p :: rest) k = if p.1 = k then some p.2 else clookup rest k := by
  by_cases hp : p.1 = k <;> simp [clookup, List.find?_cons, hp]

theorem clookup_append_absent (clo : Closure) (k : String) (v : Obj)
    (h : clookup clo k = Option.none) : clookup (clo ++ [(k, v)]) k = some v := by
  induction clo with
  | nil => simp [clookup]
  | cons p rest ih =>
    rw [clookup_cons] at h
    by_cases hp : p.1 = k
    · rw [if_pos hp] at h; exact absurd h (by simp)
    · rw [if_neg hp] at h
      rw [List.cons_append, clookup_cons, if_neg hp]
      exact ih h

theorem clookup_append_ne (clo : Closure) (k p0 : String) (v : Obj) (h : ¬ p0 = k) :
    clookup (clo ++ [(p0, v)]) k = clookup clo k := by
  induction clo with
  | nil => simp [clookup, List.find?_cons, h]
  | cons p rest ih =>
    rw [List.cons_append, clookup_cons, clookup_cons, ih]

theorem cemplace_absent (clo : Closure) (k : String) (v : Obj)
    (h : clookup clo k = Option.none) : cemplace clo k v = clo ++ [(k, v)] := by
  rw [cemplace, h]

theorem clookup_cemplace_self (clo : Closure) (k : String) (v : Obj)
    (h : clookup clo k = Option.none) : clookup (cemplace clo k v) k = some v := by
  rw [cemplace_absent clo k v h]
  exact clookup_append_absent clo k v h

theorem clookup_cemplace_ne (clo : Closure) (k p0 : String) (v : Obj) (h : ¬ p0 = k) :
    clookup (cemplace clo p0 v) k = clookup clo k := by
  rw [cemplace]
  cases hl : clookup clo p0 with
  | some w => rfl
  | none => exact clookup_append_ne clo k p0 v h

theorem cinsert_append_self (clo : Closure) (k : String) (v : Obj)
    (h : clookup clo k = Option.none) :
    cinsert (clo ++ [(k, v)]) k v = clo ++ [(k, v)] := by
  induction clo with
  | nil => simp [cinsert]
  | cons p rest ih =>
    rw [clookup_cons] at h
    by_cases hp : p.1 = k
    · rw [if_pos hp] at h; exact absurd h (by simp)
    · rw [if_neg hp] at h
      rw [List.cons_append, cinsert, if_neg hp, ih h]

theorem clookup_emplaceAll_not_mem (params : List String) :
    ∀ (args : List Obj) (clo : Closure) (k : String), k ∉ params →
      clookup (emplaceAll clo params args) k = clookup clo k := by
  induction params with
  | nil => intro args clo k _; cases args <;> rfl
  | cons p ps ih =>
    intro args clo k hk
    match args with
    | [] => rfl
    | a :: rest =>
      rw [emplaceAll]
      rw [ih rest (cemplace clo p a) k (by simp at hk; exact hk.2)]
      exact clookup_cemplace_ne clo k p a (by simp at hk; exact fun he => hk.1 he.symm)

theorem clookup_buildCallClosure_self (params : List String) (args : List Obj)
    (addr : Nat) (h : "self" ∉ params) :
    clookup (buildCallClosure params args addr) "self" = some (Obj.inst addr false) := by
  rw [buildCallClosure]
  apply clookup_cemplace_self
  rw [clookup_emplaceAll_not_mem params args [] "self" h]
  rfl


/-! ## Further helper lemmas for the claim theorems -/

/-- If the quote character never occurs in the rest of the line, the
string loop consumes the whole line. -/
theorem strLoop_snd_nil_of_not_mem (start : Char) (l : List Char) (h : start ∉ l) :
    (strLoop start l).2 = [] := by
  suffices hs : ∀ n (l : List Char), l.length ≤ n → start ∉ l → (strLoop start l).2 = [] from
    hs l.length l le_rfl h
  intro n
  induction n with
  | zero =>
    intro l hl _
    match l with
    | [] => simp [strLoop_nil]
    | c :: rest => simp at hl
  | succ n ih =>
  intro l hl hmem
  match l with
  | [] => simp [strLoop_nil]
  | c :: rest =>
    by_cases hc : c = '\\'
    · subst hc
      match rest with
      | [] => simp [strLoop_backslash_end]
      | d :: rest2 =>
        by_cases hd : (d = '"' || d = '\'' || d = 'n' || d = 't') = true
        · rw [strLoop_escape start d rest2 hd]
          exact ih rest2 (by simp at hl ⊢; omega) (by simp at hmem; simp [hmem])
        · rw [strLoop_bad_escape start d rest2 (by simpa using hd)]
          exact ih (d :: rest2) (by simp at hl ⊢; omega) (by simp at hmem; simp [hmem])
    · by_cases hs0 : c = start
      · exact absurd (hs0 ▸ List.mem_cons_self c rest) hmem
      · rw [strLoop_plain start c rest hc hs0]
        exact ih rest (by simp at hl ⊢; omega) (fun hm => hmem (List.mem_cons_of_mem c hm))

/-- The inner tokenization loop on a line whose first unconsumed
character opens a `#` comment yields no tokens. -/
theorem tokenizeRest_comment (rest2 : List Char) :
    tokenizeRest ('#' :: rest2) = .ok [] := by
  rw [tokenizeRest]
  show tokenizeRestGo (rest2.length + 1 + 1) ('#' :: rest2) = .ok []
  rw [tokenizeRestGo]
  have h1 : removeSpaceLeft ('#' :: rest2) = (0, '#' :: rest2) := by
    rw [removeSpaceLeft]
    simp
  rw [h1]
  have h2 : splitTokenLeft ('#' :: rest2) = .ok (Option.none, []) := by
    rw [splitTokenLeft]
    simp
  simp only [h2]
  rw [tokenizeRestGo]
  simp [removeSpaceLeft]

/-- Source: `NewInstance::Execute` when no matching-arity `__init__` is found:
the argument expressions are not evaluated, the closure and output are
untouched, and the result is the owning holder of a fresh instance
whose only field is `self`, bound to that same owning holder. -/
theorem newInstance_no_init (env : List ClassData) (fuel : Nat) (ci : Nat)
    (args : List Stmt) (clo : Closure) (st : St)
    (h : hasMethod env ci ("__init__") args.length = false) :
    evalStmt env (fuel+2) (Stmt.newInstance ci args) clo st =
      some (clo,
        { st with heap := st.heap ++ [⟨ci, [("self", Obj.inst st.heap.length true)]⟩] },
        .ok (Obj.inst st.heap.length true)) := by
  show evalStmt env (fuel+1+1) (Stmt.newInstance ci args) clo st = _
  rw [evalStmt]
  rw [evalArgsIfInit]
  simp [h]


/-! ## Claim theorems -/

/-- C1, counterexample.  The claim says `Or(l, r).Execute` evaluates
both operands even when the left one already decides the result.  In
the code, `IsTrue(lhs_->Execute(..)) || IsTrue(rhs_->Execute(..))`
short-circuits: with a truthy left operand and `Print 1` as the right
operand, the output stays empty — while running the right operand by
itself (second conjunct) does write `1\n` — so the right operand was
not evaluated. -/
theorem C1_counterexample :
    evalStmt [] 4 (Stmt.orOp (Stmt.boolConst true) (Stmt.print [Stmt.numConst 1]))
        [] ⟨[], ""⟩ = some ([], ⟨[], ""⟩, .ok (Obj.bool true)) ∧
    evalStmt [] 4 (Stmt.print [Stmt.numConst 1]) [] ⟨[], ""⟩ =
        some ([], ⟨[], "1\n"⟩, .ok Obj.none) :=
  ⟨by decide, by decide⟩

/-- C1, amended.  `And`/`Or` return an owned `Bool` of the
conjunction/disjunction of the operands' truthiness, but they
short-circuit: `Or` evaluates the right operand only when the left one
is falsy, `And` only when it is truthy; the skipped operand's side
effects do not occur (closure and state are exactly those left by the
left operand). -/
theorem C1_and_or_short_circuit (env : List ClassData) (fuel : Nat) (l r : Stmt)
    (clo c1 : Closure) (st s1 : St) (v1 : Obj)
    (h1 : evalStmt env fuel l clo st = some (c1, s1, .ok v1)) :
    (IsTrue v1 = true →
      evalStmt env (fuel+1) (Stmt.orOp l r) clo st = some (c1, s1, .ok (Obj.bool true))) ∧
    (IsTrue v1 = false →
      evalStmt env (fuel+1) (Stmt.andOp l r) clo st = some (c1, s1, .ok (Obj.bool false))) ∧
    (∀ c2 s2 v2, evalStmt env fuel r c1 s1 = some (c2, s2, .ok v2) →
      (IsTrue v1 = false →
        evalStmt env (fuel+1) (Stmt.orOp l r) clo st =
          some (c2, s2, .ok (Obj.bool (IsTrue v2)))) ∧
      (IsTrue v1 = true →
        evalStmt env (fuel+1) (Stmt.andOp l r) clo st =
          some (c2, s2, .ok (Obj.bool (IsTrue v2))))) := by
  refine ⟨?_, ?_, ?_⟩
  · intro ht
    rw [evalStmt]
    simp [h1, ht]
  · intro hf
    rw [evalStmt]
    simp [h1, hf]
  · intro c2 s2 v2 h2
    constructor
    · intro hf
      rw [evalStmt]
      simp [h1, hf, h2]
    · intro ht
      rw [evalStmt]
      simp [h1, ht, h2]

/-- C1, witness for the amended theorem. -/
theorem C1_and_or_short_circuit_witness :
    evalStmt [] 2 (Stmt.orOp (Stmt.boolConst true) (Stmt.noneConst)) [] ⟨[], ""⟩ =
      some ([], ⟨[], ""⟩, .ok (Obj.bool true)) :=
  (C1_and_or_short_circuit [] 1 (Stmt.boolConst true) Stmt.noneConst
    [] [] ⟨[], ""⟩ ⟨[], ""⟩ (Obj.bool true) (by decide)).1 (by decide)

/-- C2, counterexample.  The claim says a line beginning with `#`
(after leading spaces) is skipped entirely, with no tokens and no
indent-state change.  In the code the blank-line `continue` happens
before the `#` is even looked at, so a comment line goes through the
indentation logic: at previous indent 0, the line `"  #c"` produces an
`Indent` and a `Newline` and sets the recorded indent to 2 (and the
two-line program gains an `Indent`/`Newline`/`Dedent` around the
comment). -/
theorem C2_counterexample :
    processLine 0 ("  #c".toList) = .ok ([Tok.indent, Tok.newline], 2) ∧
    (([Tok.indent, Tok.newline], 2) : List Tok × Nat) ≠ (([], 0) : List Tok × Nat) ∧
    lexer ["x".toList, "  #c".toList] =
      .ok [Tok.id ['x'], Tok.newline, Tok.indent, Tok.newline, Tok.dedent, Tok.eof] :=
  ⟨by decide, by decide, by decide⟩

/-- C2, amended.  A line that is empty after stripping leading spaces
is skipped entirely: no tokens, recorded indentation unchanged.  A
comment line (first unconsumed character `#`) contributes no content
tokens, but its indentation IS processed: an odd indent raises the
lexer error, and otherwise the recorded indentation becomes the
comment line's indent and the usual `Indent`/`Dedent` tokens (plus a
closing `Newline` when there are any) are emitted. -/
theorem C2_blank_and_comment_lines (prev : Nat) (line : List Char) :
    ((removeSpaceLeft line).2 = [] → processLine prev line = .ok ([], prev)) ∧
    (∀ rest2, (removeSpaceLeft line).2 = '#' :: rest2 →
      ((removeSpaceLeft line).1 % 2 ≠ 0 →
        processLine prev line = .error ⟨"Error of indent"⟩) ∧
      ((removeSpaceLeft line).1 % 2 = 0 →
        processLine prev line =
          .ok (if indentToks prev (removeSpaceLeft line).1 = [] then []
               else indentToks prev (removeSpaceLeft line).1 ++ [Tok.newline],
               (removeSpaceLeft line).1))) := by
  constructor
  · intro hb
    rw [processLine]
    simp [hb]
  · intro rest2 hc
    constructor
    · intro hodd
      rw [processLine]
      simp only [hc]
      simp [hodd]
    · intro heven
      rw [processLine]
      simp only [hc, tokenizeRest_comment]
      simp only [heven]
      simp
      split <;> simp

/-- C2, witness for the amended theorem. -/
theorem C2_blank_and_comment_lines_witness :
    processLine 3 ("   ".toList) = .ok ([], 3) ∧
    processLine 0 ("  #c".toList) =
      .ok (if indentToks 0 2 = [] then [] else indentToks 0 2 ++ [Tok.newline], 2) :=
  ⟨(C2_blank_and_comment_lines 3 ("   ".toList)).1 (by decide),
   ((C2_blank_and_comment_lines 0 ("  #c".toList)).2 ['c'] (by decide)).2 (by decide)⟩

/-- C3, counterexample.  The claim says that in a dotted lookup every
intermediate value must be a `ClassInstance` and that field access on a
non-instance is a runtime error.  In the code there is no such check:
when the current value is not an instance the next name is simply
looked up in the SAME closure.  With `x ↦ Number 5, y ↦ Number 7`,
`VariableValue [x, y]` returns `Number 7` instead of raising an
error. -/
theorem C3_counterexample :
    evalStmt [] 1 (Stmt.varVal ["x", "y"])
        [("x", Obj.num 5), ("y", Obj.num 7)] ⟨[], ""⟩ =
      some ([("x", Obj.num 5), ("y", Obj.num 7)], ⟨[], ""⟩, .ok (Obj.num 7)) :=
  by decide

/-- C3, amended.  `VariableValue [id0, …, idN]` looks each name up in
the current closure — a missing name is a runtime error — and the
looked-up value becomes the result so far; when (and only when) that
value is a `ClassInstance` the current closure moves to the instance's
fields for the next name, otherwise the next name is looked up in the
unchanged current closure; the final value is returned. -/
theorem C3_dotted_lookup (st : St) (clo : Closure) (n : String)
    (rest : List String) (o : Obj) :
    (clookup clo n = Option.none →
      varLookup st clo (n :: rest) o =
        .error (Exc.rt ("Variable " ++ n ++ " not found"))) ∧
    (∀ a ow, clookup clo n = some (Obj.inst a ow) →
      varLookup st clo (n :: rest) o =
        varLookup st (fieldsOf st a) rest (Obj.inst a ow)) ∧
    (∀ v, clookup clo n = some v → (∀ a ow, v ≠ Obj.inst a ow) →
      varLookup st clo (n :: rest) o = varLookup st clo rest v) ∧
    varLookup st clo ([] : List String) o = .ok o ∧
    (∀ (env : List ClassData) (fuel : Nat) (names : List String),
      evalStmt env (fuel+1) (Stmt.varVal names) clo st =
        some (clo, st, varLookup st clo names Obj.none)) := by
  refine ⟨?_, ?_, ?_, rfl, ?_⟩
  · intro hn
    rw [varLookup]
    simp [hn]
  · intro a ow hn
    rw [varLookup]
    simp [hn]
  · intro v hn hni
    rw [varLookup]
    simp only [hn]
  · intro env fuel names
    rw [evalStmt]

/-- C3, witness for the amended theorem. -/
theorem C3_dotted_lookup_witness :
    varLookup ⟨[], ""⟩ [] ["z"] Obj.none =
      .error (Exc.rt ("Variable " ++ "z" ++ " not found")) :=
  (C3_dotted_lookup ⟨[], ""⟩ [] "z" [] Obj.none).1 (by decide)

/-- C4, counterexample.  The claim says `\\` decodes to a single
backslash with both characters consumed, and that an unrecognized
escape yields the following character alone.  In the code the escape
set is `"'nt` (no backslash): in `"\\n"` the first backslash is
emitted literally and only one character is consumed, after which
`\n` is decoded as a LF — giving `['\\', LF]`, not the claim's
`['\\', 'n']`. -/
theorem C4_counterexample :
    splitTokenString ('"' :: '\\' :: '\\' :: 'n' :: '"' :: []) =
      some (Tok.str ['\\', '\n'], []) ∧
    (['\\', '\n'] : List Char) ≠ ['\\', 'n'] :=
  ⟨by decide, by decide⟩

/-- C4, amended.  Inside a string literal: `\n`, `\t`, `\"`, `\'`
decode to LF, TAB, `"`, `'`, consuming two characters and contributing
one.  A backslash followed by any other character contributes the
BACKSLASH itself and consumes only the backslash — the following
character is then processed afresh (so `\\` is not an escape for a
single backslash).  A lone backslash at end of line also contributes a
backslash.  A leading `"` or `'` always begins a `String` token. -/
theorem C4_escape_decoding (start d : Char) (rest : List Char) :
    ((d = '"' || d = '\'' || d = 'n' || d = 't') = true →
      strLoop start ('\\' :: d :: rest) =
        ((if d = 'n' then '\n' else if d = 't' then '\t' else d)
           :: (strLoop start rest).1,
         (strLoop start rest).2)) ∧
    ((d = '"' || d = '\'' || d = 'n' || d = 't') = false →
      strLoop start ('\\' :: d :: rest) =
        ('\\' :: (strLoop start (d :: rest)).1, (strLoop start (d :: rest)).2)) ∧
    strLoop start ['\\'] = (['\\'], []) ∧
    (∀ (q : Char) (rest0 : List Char), (q = '"' || q = '\'') = true →
      splitTokenString (q :: rest0) =
        some (Tok.str (strLoop q rest0).1, (strLoop q rest0).2)) := by
  refine ⟨strLoop_escape start d rest, ?_, strLoop_backslash_end start, ?_⟩
  · intro hd
    exact strLoop_bad_escape start d rest hd
  · intro q rest0 hq
    rw [splitTokenString]
    simp [hq]

/-- C4, witness for the amended theorem. -/
theorem C4_escape_decoding_witness :
    strLoop '"' ('\\' :: 'n' :: '"' :: []) =
      ((if 'n' = 'n' then '\n' else if 'n' = 't' then '\t' else 'n')
         :: (strLoop '"' ['"']).1,
       (strLoop '"' ['"']).2) :=
  (C4_escape_decoding '"' 'n' ['"']).1 (by decide)

/-- C5, code bug.  The claim (and the spec) say `Stringify(expr)`
evaluates `expr` exactly once.  `Stringify::Execute` stores
`obj = argument_->Execute(...)`, but then ignores `obj` and calls
`argument_->Execute(...)` a second time for printing.  On the argument
`x = x + 1` starting from `x = 0`, a single evaluation would leave
`x = 1` and render `"1"`; the code leaves `x = 2` and renders `"2"`. -/
theorem C5_stringify_double_evaluation :
    evalStmt [] 9
      (Stmt.stringify (Stmt.assign ("x") (Stmt.add (Stmt.varVal ["x"]) (Stmt.numConst 1))))
      [("x", Obj.num 0)] ⟨[], ""⟩ =
      some ([("x", Obj.num 2)], ⟨[], ""⟩, .ok (Obj.str ("2"))) :=
  by decide

/-- C6, counterexample.  The claim says `NewInstance` binds the fresh
instance's field `self` to a `Share` (non-owning) holder.  The code
executes `obj.Fields()["self"] = obj_holder;` where `obj_holder` is the
OWNING holder created by `ObjectHolder::Own`: the stored holder is
`Obj.inst 0 true` (owning), not the `Share` form `Obj.inst 0 false`. -/
theorem C6_counterexample :
    evalStmt [⟨"A", [], Option.none⟩] 2 (Stmt.newInstance 0 []) [] ⟨[], ""⟩ =
      some ([], ⟨[⟨0, [("self", Obj.inst 0 true)]⟩], ""⟩, .ok (Obj.inst 0 true)) ∧
    Obj.inst 0 true ≠ Obj.inst 0 false :=
  ⟨by decide, by decide⟩

/-- C6, amended.  `NewInstance` pre-populates the fresh instance's
field closure with `self` bound to the OWNING holder aliasing that very
instance (the same holder it returns); it is `ClassInstance::Call` that
binds `self` as a `Share` — in the method-call closure, not in the
field closure. -/
theorem C6_self_binding (env : List ClassData) (fuel ci : Nat) (args : List Stmt)
    (clo : Closure) (st : St)
    (h : hasMethod env ci ("__init__") args.length = false)
    (params : List String) (argv : List Obj) (addr : Nat) (hp : ("self") ∉ params) :
    (evalStmt env (fuel+2) (Stmt.newInstance ci args) clo st =
       some (clo,
         { st with heap := st.heap ++ [⟨ci, [("self", Obj.inst st.heap.length true)]⟩] },
         .ok (Obj.inst st.heap.length true)) ∧
     clookup [("self", Obj.inst st.heap.length true)] ("self") =
       some (Obj.inst st.heap.length true)) ∧
    clookup (buildCallClosure params argv addr) ("self") = some (Obj.inst addr false) := by
  refine ⟨⟨newInstance_no_init env fuel ci args clo st h, ?_⟩, ?_⟩
  · rfl
  · exact clookup_buildCallClosure_self params argv addr hp

/-- C6, witness for the amended theorem. -/
theorem C6_self_binding_witness :
    (evalStmt [⟨"A", [], Option.none⟩] 2 (Stmt.newInstance 0 []) [] ⟨[], ""⟩ =
       some ([],
         { heap := ([] : List Inst) ++ [⟨0, [("self", Obj.inst 0 true)]⟩], output := "" },
         .ok (Obj.inst 0 true)) ∧
     clookup [("self", Obj.inst 0 true)] ("self") = some (Obj.inst 0 true)) ∧
    clookup (buildCallClosure ["n"] [Obj.num 1] 5) ("self") = some (Obj.inst 5 false) :=
  C6_self_binding [⟨"A", [], Option.none⟩] 0 0 [] [] ⟨[], ""⟩ (by decide)
    ["n"] [Obj.num 1] 5 (by decide)

/-- C7, counterexample.  The claim says an unterminated string raises a
lexer error.  `SplitTokenString`'s loop simply stops at end of line and
returns the accumulated value as a `String` token: the one-line program
`x = "abc` lexes successfully, producing `String "abc"`. -/
theorem C7_counterexample :
    lexer ["x = \"abc".toList] =
      .ok [Tok.id ['x'], Tok.char '=', Tok.str ['a','b','c'], Tok.newline, Tok.eof] :=
  by decide

/-- C7, amended.  An unterminated string raises no error: when the
opening quote character does not occur again before the end of the
line, `SplitTokenString` consumes the whole remainder of the line and
yields a `String` token holding its decoded characters. -/
theorem C7_unterminated_string (q : Char) (rest : List Char)
    (hq : (q = '"' || q = '\'') = true) (hm : q ∉ rest) :
    splitTokenString (q :: rest) = some (Tok.str (strLoop q rest).1, []) := by
  rw [splitTokenString]
  simp only [hq, if_pos]
  rw [strLoop_snd_nil_of_not_mem q rest hm]

/-- C7, witness for the amended theorem. -/
theorem C7_unterminated_string_witness :
    splitTokenString ('"' :: ['a', 'b']) = some (Tok.str (strLoop '"' ['a', 'b']).1, []) :=
  C7_unterminated_string '"' ['a', 'b'] (by decide) (by decide)

/-- C8, confirmed.  `Return::Execute` evaluates its expression and
throws the resulting holder (the unwind); `MethodBody::Execute` runs
its body and catches exactly that unwind, returning the carried value;
a body that completes normally yields `None`; a runtime error raised in
the body is NOT caught by `MethodBody` and propagates unchanged. -/
theorem C8_return_and_method_body (env : List ClassData) (fuel : Nat) (e b : Stmt)
    (clo c1 : Closure) (st s1 : St) :
    (∀ v, evalStmt env fuel e clo st = some (c1, s1, .ok v) →
      evalStmt env (fuel+1) (Stmt.ret e) clo st = some (c1, s1, .error (Exc.ret v))) ∧
    (∀ v, evalStmt env fuel b clo st = some (c1, s1, .error (Exc.ret v)) →
      evalStmt env (fuel+1) (Stmt.methodBody b) clo st = some (c1, s1, .ok v)) ∧
    (∀ w, evalStmt env fuel b clo st = some (c1, s1, .ok w) →
      evalStmt env (fuel+1) (Stmt.methodBody b) clo st = some (c1, s1, .ok Obj.none)) ∧
    (∀ msg, evalStmt env fuel b clo st = some (c1, s1, .error (Exc.rt msg)) →
      evalStmt env (fuel+1) (Stmt.methodBody b) clo st =
        some (c1, s1, .error (Exc.rt msg))) := by
  refine ⟨?_, ?_, ?_, ?_⟩
  · intro v hv
    rw [evalStmt]
    simp [hv]
  · intro v hv
    rw [evalStmt]
    simp [hv]
  · intro w hw
    rw [evalStmt]
    simp [hw]
  · intro msg hm
    rw [evalStmt]
    simp [hm]

/-- C8, witness. -/
theorem C8_return_and_method_body_witness :
    evalStmt [] 3 (Stmt.methodBody (Stmt.ret (Stmt.numConst 42))) [] ⟨[], ""⟩ =
      some ([], ⟨[], ""⟩, .ok (Obj.num 42)) :=
  (C8_return_and_method_body [] 2 Stmt.noneConst (Stmt.ret (Stmt.numConst 42))
    [] [] ⟨[], ""⟩ ⟨[], ""⟩).2.1 (Obj.num 42) (by decide)

/-- C9, confirmed.  `Assignment::Execute` runs
`auto& var = closure[var_];` BEFORE evaluating the right-hand side:
for a previously-unbound variable this creates the entry, bound to the
empty (None) holder.  Consequently the right-hand side is evaluated in
`closure ++ [(var, None)]`; if it raises an error, the error propagates
with the entry still present (assignment is not atomic), and a
right-hand side that reads the variable being assigned observes `None`
rather than an undefined-variable error. -/
theorem C9_assignment_binds_before_rhs (env : List ClassData) (fuel : Nat)
    (var : String) (rv : Stmt) (clo : Closure) (st : St)
    (hun : clookup clo var = Option.none) :
    (∀ c1 s1 e,
      evalStmt env fuel rv (clo ++ [(var, Obj.none)]) st = some (c1, s1, .error e) →
      evalStmt env (fuel+1) (Stmt.assign var rv) clo st = some (c1, s1, .error e)) ∧
    (∀ c1 s1 v,
      evalStmt env fuel rv (clo ++ [(var, Obj.none)]) st = some (c1, s1, .ok v) →
      evalStmt env (fuel+1) (Stmt.assign var rv) clo st =
        some (cinsert c1 var v, s1, .ok v)) ∧
    evalStmt env (fuel+2) (Stmt.assign var (Stmt.varVal [var])) clo st =
      some (clo ++ [(var, Obj.none)], st, .ok Obj.none) := by
  have hemp : cemplace clo var Obj.none = clo ++ [(var, Obj.none)] :=
    cemplace_absent clo var Obj.none hun
  refine ⟨?_, ?_, ?_⟩
  · intro c1 s1 e he
    rw [evalStmt]
    simp [hemp, he]
  · intro c1 s1 v hv
    rw [evalStmt]
    simp [hemp, hv]
  · show evalStmt env (fuel+1+1) (Stmt.assign var (Stmt.varVal [var])) clo st = _
    rw [evalStmt]
    simp only [hemp]
    rw [evalStmt]
    have hlk : clookup (clo ++ [(var, Obj.none)]) var = some Obj.none :=
      clookup_append_absent clo var Obj.none hun
    have hvl : varLookup st (clo ++ [(var, Obj.none)]) [var] Obj.none = .ok Obj.none := by
      rw [varLookup]
      simp only [hlk]
      rfl
    simp only [hvl]
    simp [cinsert_append_self clo var Obj.none hun]

/-- C9, witness. -/
theorem C9_assignment_binds_before_rhs_witness :
    evalStmt [] 4 (Stmt.assign ("v") (Stmt.div (Stmt.numConst 1) (Stmt.numConst 0)))
        [] ⟨[], ""⟩ =
      some ([("v", Obj.none)], ⟨[], ""⟩, .error (Exc.rt ("Error div to null"))) ∧
    evalStmt [] 4 (Stmt.assign ("v") (Stmt.varVal ["v"])) [] ⟨[], ""⟩ =
      some ([("v", Obj.none)], ⟨[], ""⟩, .ok Obj.none) :=
  ⟨(C9_assignment_binds_before_rhs [] 3 ("v")
      (Stmt.div (Stmt.numConst 1) (Stmt.numConst 0)) [] ⟨[], ""⟩ (by decide)).1
      [("v", Obj.none)] ⟨[], ""⟩ (Exc.rt ("Error div to null")) (by decide),
   (C9_assignment_binds_before_rhs [] 2 ("v") (Stmt.varVal ["v"]) [] ⟨[], ""⟩
      (by decide)).2.2⟩

/-- C10, confirmed.  When no `__init__` of arity exactly `|args|` is
found along the class's ancestor chain, `NewInstance::Execute` raises
no error, never evaluates the argument expressions (the closure and the
output are untouched and the heap gains only the new instance), and
returns a fresh instance whose field closure holds only `self`. -/
theorem C10_new_instance_without_init (env : List ClassData) (fuel ci : Nat)
    (args : List Stmt) (clo : Closure) (st : St)
    (h : ∀ m ∈ chainMethods env ci, m.name = ("__init__") →
      m.formal_params.length ≠ args.length) :
    evalStmt env (fuel+2) (Stmt.newInstance ci args) clo st =
      some (clo,
        { st with heap := st.heap ++ [⟨ci, [("self", Obj.inst st.heap.length true)]⟩] },
        .ok (Obj.inst st.heap.length true)) :=
  newInstance_no_init env fuel ci args clo st
    (hasMethod_false_of_no_arity env ci ("__init__") args.length h)

/-- C10, witness. -/
theorem C10_new_instance_without_init_witness :
    evalStmt [⟨"B", [⟨"__init__", ["x", "y"], Stmt.methodBody (Stmt.compound [])⟩],
        Option.none⟩] 3
      (Stmt.newInstance 0 [Stmt.print [Stmt.numConst 9]]) [] ⟨[], ""⟩ =
      some ([],
        { heap := ([] : List Inst) ++ [⟨0, [("self", Obj.inst 0 true)]⟩], output := "" },
        .ok (Obj.inst 0 true)) :=
  C10_new_instance_without_init
    [⟨"B", [⟨"__init__", ["x", "y"], Stmt.methodBody (Stmt.compound [])⟩], Option.none⟩]
    1 0 [Stmt.print [Stmt.numConst 9]] [] ⟨[], ""⟩ (by decide)


end Mython
